import Mathlib

/-
Verification of the resource-manager parsing and cursor-size resolution core
of libxcb-cursor (src/cursor/cursor.c), as a shallow embedding.

Strings are modelled as `List Char` restricted to the byte range the C code
manipulates; the property blob handed to `parse_resource_manager` is the text
materialised by `asprintf("%.*s", len, bytes)` (so up to any NUL byte), with
`none` standing for a NULL reply pointer.  Machine integers are modelled as
`Nat`/`Int`, with reduction modulo 2^32 exactly where the C code converts an
`int` to the `uint32_t` return type of `get_default_size`.
-/

/-- C-locale isspace over the ASCII range, as consulted by
`parse_resource_manager` (value skipping) and by `atoi`: space, horizontal
tab, newline, vertical tab, form feed, carriage return. -/
def isspaceC (c : Char) : Bool :=
  c == ' ' || c == '\t' || c == '\n' || c == '\x0b' || c == '\x0c' || c == '\r'

/-- Accumulation loop over a maximal run of leading decimal digits, the digit
loop of the C library `atoi`; stops at the first non-digit. -/
def digitsVal : Nat → List Char → Nat
  | acc, [] => acc
  | acc, c :: cs => if c.isDigit then digitsVal (acc * 10 + (c.toNat - 48)) cs else acc

/-- The C library `atoi` on the bytes of a string: skip leading whitespace,
read an optional sign, then leading decimal digits; wholly non-numeric input
gives 0.  Overflow of the C `int` is undefined behaviour and is not modelled:
the result is the exact mathematical value. -/
def atoi (s : List Char) : Int :=
  match s.dropWhile isspaceC with
  | '-' :: r => - (digitsVal 0 r : Int)
  | '+' :: r => (digitsVal 0 r : Int)
  | t => (digitsVal 0 t : Int)

/-- The three recognized RESOURCE_MANAGER entries (the `RM_*` enumeration
indexing the context's `rm` array). -/
inductive RmKey
  | RM_XCURSOR_THEME
  | RM_XCURSOR_SIZE
  | RM_XFT_DPI
  deriving DecidableEq

/-- The `rm` array of `xcb_cursor_context_t`: one optional owned string per
recognized key; `none` models a NULL entry (key not available). -/
structure ResourceTable where
  RM_XCURSOR_THEME : Option (List Char)
  RM_XCURSOR_SIZE : Option (List Char)
  RM_XFT_DPI : Option (List Char)
  deriving DecidableEq

/-- The table as `calloc` leaves it: every entry NULL. -/
def ResourceTable.empty : ResourceTable := ⟨none, none, none⟩

/-- Read one entry of the `rm` array. -/
def ResourceTable.get : ResourceTable → RmKey → Option (List Char)
  | t, RmKey.RM_XCURSOR_THEME => t.RM_XCURSOR_THEME
  | t, RmKey.RM_XCURSOR_SIZE => t.RM_XCURSOR_SIZE
  | t, RmKey.RM_XFT_DPI => t.RM_XFT_DPI

/-- Overwrite one entry of the `rm` array (the `c->rm[...] = strdup(sep)`
assignment; `strdup` is assumed to succeed). -/
def ResourceTable.set : ResourceTable → RmKey → List Char → ResourceTable
  | t, RmKey.RM_XCURSOR_THEME, v => { t with RM_XCURSOR_THEME := some v }
  | t, RmKey.RM_XCURSOR_SIZE, v => { t with RM_XCURSOR_SIZE := some v }
  | t, RmKey.RM_XFT_DPI, v => { t with RM_XFT_DPI := some v }

/-- Split a character list at newline characters, keeping empty segments: the
raw segment structure underlying `strtok_r` with delimiter `"\n"`. -/
def splitNl : List Char → List (List Char)
  | [] => [[]]
  | c :: cs =>
    match splitNl cs with
    | [] => [[]]
    | s :: rest => if c = '\n' then [] :: s :: rest else (c :: s) :: rest

/-- The token sequence produced by repeated `strtok_r(·, "\n", ·)`: the
non-empty newline-delimited segments, in order. -/
def tokens (s : List Char) : List (List Char) :=
  (splitNl s).filter (fun l => !l.isEmpty)

/-- One iteration of the loop body of `parse_resource_manager` on a token
line: `strchr` looks for the first `:` (its absence aborts the whole parse,
signalled here by `none`); the bytes before the colon are the key, compared
verbatim against the three recognized names, and the bytes after it with
leading whitespace skipped are the stored value. -/
def processLine (t : ResourceTable) (line : List Char) : Option ResourceTable :=
  match line.dropWhile (· != ':') with
  | [] => none
  | _ :: sep =>
    some (if line.takeWhile (· != ':') = ("Xcursor.theme").data then
        { t with RM_XCURSOR_THEME := some (sep.dropWhile isspaceC) }
      else if line.takeWhile (· != ':') = ("Xcursor.size").data then
        { t with RM_XCURSOR_SIZE := some (sep.dropWhile isspaceC) }
      else if line.takeWhile (· != ':') = ("Xft.dpi").data then
        { t with RM_XFT_DPI := some (sep.dropWhile isspaceC) }
      else t)

/-- The `strtok_r`-driven loop of `parse_resource_manager` over the token
list: a line without a colon stops the loop, keeping the table accumulated so
far. -/
def runLines : ResourceTable → List (List Char) → ResourceTable
  | t, [] => t
  | t, line :: rest =>
    match processLine t line with
    | none => t
    | some t2 => runLines t2 rest

/-- `parse_resource_manager`: a NULL reply or a zero-length property value
leaves the calloc-zeroed table untouched; otherwise the blob text is split
into newline tokens and processed in order. -/
def parse_resource_manager : Option (List Char) → ResourceTable
  | none => ResourceTable.empty
  | some s => runLines ResourceTable.empty (tokens s)

/-- The two geometry fields of `xcb_screen_t` read by `get_default_size`
(`uint16_t` values on the wire, hence naturally in `Nat`). -/
structure xcb_screen_t where
  width_in_pixels : Nat
  height_in_pixels : Nat
  deriving DecidableEq

/-- Conversion of a C `int` value to the `uint32_t` return type of
`get_default_size`: reduction modulo 2^32. -/
def toU32 (i : Int) : Nat := (i % 4294967296).toNat

/-- `get_default_size`: the `XCURSOR_SIZE` environment override, else the
`Xcursor.size` resource, else `Xft.dpi * 16 / 72` when the parsed dpi is
positive, else the smaller screen dimension divided by 48.  The `env`
argument is `getenv("XCURSOR_SIZE")` (`none` when unset).  The declared
return type is `uint32_t`, so every returned `int` undergoes the mod-2^32
conversion; the divisions happen on non-negative operands, where C's
truncating division and Lean's division agree. -/
def get_default_size (t : ResourceTable) (env : Option (List Char))
    (screen : xcb_screen_t) : Nat :=
  match env with
  | some v => toU32 (atoi v)
  | none =>
    match t.RM_XCURSOR_SIZE with
    | some s => toU32 (atoi s)
    | none =>
      match t.RM_XFT_DPI with
      | some d =>
        if 0 < atoi d then toU32 (atoi d * 16 / 72)
        else (if screen.height_in_pixels < screen.width_in_pixels then
            screen.height_in_pixels else screen.width_in_pixels) / 48
      | none => (if screen.height_in_pixels < screen.width_in_pixels then
          screen.height_in_pixels else screen.width_in_pixels) / 48

/-- The fields of `xcb_cursor_context_t` owned by the context (connection and
protocol reply handles abstracted to their parsed content). -/
structure xcb_cursor_context_t where
  rm : ResourceTable
  root : Nat
  cursor_font : Nat
  size : Nat
  deriving DecidableEq

/-- `xcb_cursor_context_free`, with the context pointer modelled as an
`Option` (`none` = NULL) and a run that dereferences a null pointer modelled
as `none`: the body reads `c->rm[RM_XCURSOR_THEME]` without checking `c`, so
a NULL context faults; the `FREE` macro null-guards only the individual owned
pointers, so any live context is released successfully. -/
def xcb_cursor_context_free : Option xcb_cursor_context_t → Option Unit
  | none => none
  | some _ => some ()

/-- The recognized key named by the bytes before a line's first colon, `none`
when the line has no colon or names an unrecognized key. -/
def lineKey (line : List Char) : Option RmKey :=
  if (line.dropWhile (· != ':')).isEmpty then none
  else if line.takeWhile (· != ':') = ("Xcursor.theme").data then some RmKey.RM_XCURSOR_THEME
  else if line.takeWhile (· != ':') = ("Xcursor.size").data then some RmKey.RM_XCURSOR_SIZE
  else if line.takeWhile (· != ':') = ("Xft.dpi").data then some RmKey.RM_XFT_DPI
  else none

/-- The value a line with a colon contributes: the bytes after the first
colon with leading whitespace skipped. -/
def lineVal (line : List Char) : List Char :=
  ((line.dropWhile (· != ':')).drop 1).dropWhile isspaceC

/-- The table update performed by one well-formed line. -/
def stepTable (t : ResourceTable) (line : List Char) : ResourceTable :=
  match lineKey line with
  | none => t
  | some k => t.set k (lineVal line)

/-- `splitNl` always produces at least one segment. -/
theorem splitNl_ne_nil (l : List Char) : splitNl l ≠ [] := by
  induction l with
  | nil => simp [splitNl]
  | cons c cs ih =>
    unfold splitNl
    cases h : splitNl cs with
    | nil => exact absurd h ih
    | cons s rest => by_cases hc : c = '\n' <;> simp [hc]

/-- Splitting distributes over a newline placed between two blobs. -/
theorem splitNl_append (l1 l2 : List Char) :
    splitNl (l1 ++ '\n' :: l2) = splitNl l1 ++ splitNl l2 := by
  induction l1 with
  | nil =>
    obtain ⟨s, rest, h⟩ := List.exists_cons_of_ne_nil (splitNl_ne_nil l2)
    simp [splitNl, h]
  | cons c cs ih =>
    obtain ⟨s, rest, h⟩ := List.exists_cons_of_ne_nil (splitNl_ne_nil cs)
    obtain ⟨s2, rest2, h2⟩ := List.exists_cons_of_ne_nil (splitNl_ne_nil (cs ++ '\n' :: l2))
    have hinj := ih
    rw [h2, h, List.cons_append] at hinj
    injection hinj with h3 h4
    by_cases hc : c = '\n'
    · have lhs : splitNl (c :: (cs ++ '\n' :: l2)) = [] :: s2 :: rest2 := by
        simp [splitNl, h2, hc]
      have rhs : splitNl (c :: cs) = [] :: s :: rest := by
        simp [splitNl, h, hc]
      rw [List.cons_append, lhs, rhs]
      simp [h3, h4]
    · have lhs : splitNl (c :: (cs ++ '\n' :: l2)) = (c :: s2) :: rest2 := by
        simp [splitNl, h2, hc]
      have rhs : splitNl (c :: cs) = (c :: s) :: rest := by
        simp [splitNl, h, hc]
      rw [List.cons_append, lhs, rhs]
      simp [h3, h4]

/-- Tokenisation distributes over a newline placed between two blobs. -/
theorem tokens_append (l1 l2 : List Char) :
    tokens (l1 ++ '\n' :: l2) = tokens l1 ++ tokens l2 := by
  unfold tokens
  rw [splitNl_append, List.filter_append]

/-- A leading newline contributes no token. -/
theorem tokens_newline_cons (l : List Char) : tokens ('\n' :: l) = tokens l := by
  have h := tokens_append [] l
  simpa [tokens, splitNl] using h

/-- A trailing newline contributes no token. -/
theorem tokens_append_newline (l : List Char) : tokens (l ++ ['\n']) = tokens l := by
  have h := tokens_append l []
  simpa [tokens, splitNl] using h

/-- A line without a colon makes `processLine` abort. -/
theorem processLine_eq_none (t : ResourceTable) (line : List Char) (h : ':' ∉ line) :
    processLine t line = none := by
  have hd : line.dropWhile (· != ':') = [] := by
    rw [List.dropWhile_eq_nil_iff]
    intro x hx
    simp only [bne_iff_ne, ne_eq, decide_eq_true_eq]
    intro he
    exact h (he ▸ hx)
  simp [processLine, hd]

/-- The head of a non-empty `dropWhile` result falsifies the predicate. -/
theorem dropWhile_head_false {α : Type} (p : α → Bool) (l : List α) (c : α) (r : List α)
    (h : l.dropWhile p = c :: r) : p c = false := by
  induction l with
  | nil => simp [List.dropWhile] at h
  | cons a as ih =>
    rw [List.dropWhile_cons] at h
    by_cases ha : p a
    · exact ih (by simpa [ha] using h)
    · rw [if_neg (by simpa using ha)] at h
      injection h with h1 h2
      subst h1
      simpa using ha

/-- A line with a colon makes `processLine` perform exactly the update
captured by `stepTable`. -/
theorem processLine_eq_some (t : ResourceTable) (line : List Char) (h : ':' ∈ line) :
    processLine t line = some (stepTable t line) := by
  have hne : line.dropWhile (· != ':') ≠ [] := by
    intro he
    have := List.dropWhile_eq_nil_iff.mp he ':' h
    simp at this
  obtain ⟨c, rest, he⟩ := List.exists_cons_of_ne_nil hne
  have hc : c = ':' := by
    have := dropWhile_head_false (· != ':') line c rest he
    simpa using this
  subst hc
  unfold processLine stepTable lineKey lineVal
  rw [he]
  simp only [List.isEmpty_cons, List.drop_succ_cons, List.drop_zero]
  by_cases h1 : line.takeWhile (· != ':') = ("Xcursor.theme").data
  · simp [h1, ResourceTable.set]
  · by_cases h2 : line.takeWhile (· != ':') = ("Xcursor.size").data
    · simp [h1, h2, ResourceTable.set]
    · by_cases h3 : line.takeWhile (· != ':') = ("Xft.dpi").data
      · simp [h1, h2, h3, ResourceTable.set]
      · simp [h1, h2, h3]

/-- Running into a colon-less line discards it and everything after it. -/
theorem runLines_append_abort (bad : List Char) (rest : List (List Char))
    (hbad : ':' ∉ bad) :
    ∀ (pre : List (List Char)) (t : ResourceTable), (∀ l ∈ pre, ':' ∈ l) →
      runLines t (pre ++ bad :: rest) = runLines t pre := by
  intro pre
  induction pre with
  | nil =>
    intro t _
    simp [runLines, processLine_eq_none t bad hbad]
  | cons l ls ih =>
    intro t h
    have hl : ':' ∈ l := h l (by simp)
    rw [List.cons_append]
    simp only [runLines, processLine_eq_some t l hl]
    exact ih _ (fun x hx => h x (by simp [hx]))

/-- Reading after writing: writes hit only their own entry. -/
theorem ResourceTable.get_set (t : ResourceTable) (k k2 : RmKey) (v : List Char) :
    (t.set k v).get k2 = if k2 = k then some v else t.get k2 := by
  cases k <;> cases k2 <;> simp [ResourceTable.set, ResourceTable.get]

/-- The entry a single well-formed line leaves behind. -/
theorem get_stepTable (t : ResourceTable) (line : List Char) (k : RmKey) :
    (stepTable t line).get k =
      if lineKey line = some k then some (lineVal line) else t.get k := by
  unfold stepTable
  cases h : lineKey line with
  | none => simp [h]
  | some k2 =>
    rw [ResourceTable.get_set]
    by_cases hk : k2 = k
    · subst hk; simp
    · have h1 : ¬(k = k2) := fun hh => hk hh.symm
      simp [hk, h1]

/-- Over well-formed lines, the entry stored for a key is the value of the
last line naming that key (earlier assignments are overwritten), the entry of
the starting table when no line names it. -/
theorem runLines_last_wins (k : RmKey) :
    ∀ (ls : List (List Char)) (t : ResourceTable), (∀ l ∈ ls, ':' ∈ l) →
      (runLines t ls).get k =
        (ls.reverse.find? (fun l => lineKey l == some k)).elim (t.get k)
          (fun l => some (lineVal l)) := by
  intro ls
  induction ls with
  | nil => intro t _; simp [runLines]
  | cons l ls ih =>
    intro t h
    have hstep : runLines t (l :: ls) = runLines (stepTable t l) ls := by
      simp [runLines, processLine_eq_some t l (h l (by simp))]
    rw [hstep, ih _ (fun x hx => h x (by simp [hx])), List.reverse_cons, List.find?_append]
    cases hf : ls.reverse.find? (fun l2 => lineKey l2 == some k) with
    | some v => simp [hf]
    | none =>
      simp only [hf, Option.none_or]
      rw [get_stepTable]
      by_cases hk : lineKey l = some k
      · have hb : (lineKey l == some k) = true := by simp [hk]
        simp [List.find?, hb, hk]
      · have hb : (lineKey l == some k) = false := by simp [hk]
        simp [List.find?, hb, hk]

/-- Claim C1, counterexample: with `XCURSOR_SIZE="-5"` the resolver returns
4294967291 (the `uint32_t` conversion of `atoi`'s -5), which is neither the
claim's digits-only parse 0 nor the sign-aware parse -5. -/
theorem claim_C1_counterexample :
    get_default_size ResourceTable.empty (some (("-5").data)) ⟨1920, 1080⟩ = 4294967291 ∧
    atoi (("-5").data) = -5 ∧
    (4294967291 : Nat) ≠ 0 ∧ (4294967291 : Int) ≠ -5 := by
  refine ⟨by decide, by decide, by decide, by decide⟩

/-- Claim C1 (amended): whenever `XCURSOR_SIZE` is present (with any value,
including empty), `get_default_size` returns the C `atoi` parse of that value
reduced modulo 2^32 (the `uint32_t` return conversion), independently of the
resource table and of the screen geometry; whenever that parse is
non-negative and below 2^32 — in particular for every value made of leading
digits — the result is exactly the parse. -/
theorem claim_C1 (t t2 : ResourceTable) (g g2 : xcb_screen_t) (v : List Char) :
    get_default_size t (some v) g = toU32 (atoi v) ∧
    get_default_size t (some v) g = get_default_size t2 (some v) g2 ∧
    (0 ≤ atoi v → atoi v < 4294967296 →
      (get_default_size t (some v) g : Int) = atoi v) := by
  refine ⟨rfl, rfl, fun h1 h2 => ?_⟩
  show ((atoi v % 4294967296).toNat : Int) = atoi v
  omega

/-- Claim C1, witness: `XCURSOR_SIZE="40"` resolves to its parse 40 whatever
the table and geometry contain. -/
theorem claim_C1_witness :
    (get_default_size ResourceTable.empty (some (("40").data)) ⟨1920, 1080⟩ : Int) =
      atoi (("40").data) :=
  (claim_C1 ResourceTable.empty ResourceTable.empty ⟨1920, 1080⟩ ⟨1920, 1080⟩
    (("40").data)).2.2 (by decide) (by decide)

/-- Claim C2, counterexample: the resolver's `uint32_t` return type makes a
negative result impossible; for `XCURSOR_SIZE="-5"`, whose parse is the
negative integer -5, it returns 4294967291, not -5. -/
theorem claim_C2_counterexample :
    (get_default_size ResourceTable.empty (some (("-5").data)) ⟨0, 0⟩ : Int) = 4294967291 ∧
    atoi (("-5").data) = -5 ∧
    (get_default_size ResourceTable.empty (some (("-5").data)) ⟨0, 0⟩ : Int) ≠
      atoi (("-5").data) := by
  refine ⟨by decide, by decide, by decide⟩

/-- Claim C2 (amended): `get_default_size` is a total function; it returns 0
for a zero-sized screen with no overrides, and an environment value whose
parse is a negative integer n (above -2^32) yields n + 2^32 — the
two's-complement `uint32_t` conversion, a non-negative number — never the
negative n itself. -/
theorem claim_C2 :
    get_default_size ResourceTable.empty none ⟨0, 0⟩ = 0 ∧
    (∀ (t : ResourceTable) (g : xcb_screen_t) (v : List Char),
      atoi v < 0 → -4294967296 < atoi v →
      (get_default_size t (some v) g : Int) = atoi v + 4294967296) := by
  refine ⟨by decide, fun t g v h1 h2 => ?_⟩
  show ((atoi v % 4294967296).toNat : Int) = atoi v + 4294967296
  omega

/-- Claim C2, witness: `XCURSOR_SIZE="-5"` yields -5 + 2^32 = 4294967291. -/
theorem claim_C2_witness :
    (get_default_size ResourceTable.empty (some (("-5").data)) ⟨1024, 768⟩ : Int) =
      atoi (("-5").data) + 4294967296 :=
  claim_C2.2 ResourceTable.empty ⟨1024, 768⟩ (("-5").data) (by decide) (by decide)

/-- Claim C3: a token line with no colon aborts the parse — the returned
table is exactly the one accumulated from the lines strictly before it, with
nothing contributed by that line or any later one; on the example blob only
the theme survives and the size stays unset. -/
theorem claim_C3 :
    (∀ (s : List Char) (pre : List (List Char)) (bad : List Char)
      (rest : List (List Char)),
      tokens s = pre ++ bad :: rest → (∀ l ∈ pre, ':' ∈ l) → ':' ∉ bad →
      parse_resource_manager (some s) = runLines ResourceTable.empty pre) ∧
    parse_resource_manager (some (("Xcursor.theme: Foo\nbadline\nXcursor.size: 32\n").data)) =
      { RM_XCURSOR_THEME := some (("Foo").data), RM_XCURSOR_SIZE := none,
        RM_XFT_DPI := none } := by
  constructor
  · intro s pre bad rest hs hpre hbad
    show runLines ResourceTable.empty (tokens s) = _
    rw [hs, runLines_append_abort bad rest hbad pre _ hpre]
  · decide

/-- Claim C3, witness: on a blob whose second token is malformed, the parse
equals the run over the first token alone. -/
theorem claim_C3_witness :
    parse_resource_manager (some (("Xcursor.theme: Foo\nbadline").data)) =
      runLines ResourceTable.empty [("Xcursor.theme: Foo").data] :=
  claim_C3.1 (("Xcursor.theme: Foo\nbadline").data) [("Xcursor.theme: Foo").data]
    (("badline").data) [] (by decide) (by decide) (by decide)

/-- Claim C4: with no environment override and no `Xcursor.size` entry, an
`Xft.dpi` entry whose parse dpi is positive yields dpi * 16 / 72 with
truncating division (the bound keeps the C `int` arithmetic defined and below
2^32); an absent entry, or one parsing non-positive, yields instead
min(width, height) / 48 — the source picking height when height < width, else
width. -/
theorem claim_C4 (t : ResourceTable) (g : xcb_screen_t) (d : List Char)
    (hs : t.RM_XCURSOR_SIZE = none) :
    (t.RM_XFT_DPI = some d → 0 < atoi d → atoi d * 16 < 2147483648 →
      (get_default_size t none g : Int) = atoi d * 16 / 72) ∧
    (t.RM_XFT_DPI = none →
      get_default_size t none g = min g.width_in_pixels g.height_in_pixels / 48) ∧
    (t.RM_XFT_DPI = some d → atoi d ≤ 0 →
      get_default_size t none g = min g.width_in_pixels g.height_in_pixels / 48) := by
  refine ⟨fun hd h1 h2 => ?_, fun hd => ?_, fun hd h1 => ?_⟩
  · simp only [get_default_size, hs, hd, if_pos h1]
    show ((atoi d * 16 / 72 % 4294967296).toNat : Int) = atoi d * 16 / 72
    omega
  · simp only [get_default_size, hs, hd]
    rcases Nat.lt_or_ge g.height_in_pixels g.width_in_pixels with h | h
    · rw [if_pos h, Nat.min_eq_right (Nat.le_of_lt h)]
    · rw [if_neg (by omega), Nat.min_eq_left h]
  · simp only [get_default_size, hs, hd, if_neg (by omega : ¬(0 < atoi d))]
    rcases Nat.lt_or_ge g.height_in_pixels g.width_in_pixels with h | h
    · rw [if_pos h, Nat.min_eq_right (Nat.le_of_lt h)]
    · rw [if_neg (by omega), Nat.min_eq_left h]

/-- Claim C4, witness: `Xft.dpi = "96"` resolves to 96 * 16 / 72 = 21, and
with no entries at all a 1920x1080 screen resolves to 1080 / 48 = 22. -/
theorem claim_C4_witness :
    (get_default_size ⟨none, none, some (("96").data)⟩ none ⟨1920, 1080⟩ : Int) = 21 ∧
    get_default_size ResourceTable.empty none ⟨1920, 1080⟩ = 22 := by
  constructor
  · have h := (claim_C4 ⟨none, none, some (("96").data)⟩ ⟨1920, 1080⟩ (("96").data)
      rfl).1 rfl (by decide) (by decide)
    rw [h]; decide
  · have h := (claim_C4 ResourceTable.empty ⟨1920, 1080⟩ [] rfl).2.1 rfl
    rw [h]; decide

/-- Claim C5: on a line with a colon, the key is the byte-exact, case
sensitive, untrimmed text before the first colon; the value is the text after
the colon with all leading whitespace stripped, kept verbatim (trailing
whitespace included); a key other than the three recognized names leaves the
table unchanged.  The example blob yields theme "Foo" and size "32", and a
lowercase key is not recognized. -/
theorem claim_C5 :
    (∀ (t : ResourceTable) (k r : List Char), ':' ∉ k →
      processLine t (k ++ ':' :: r) =
        some (if k = ("Xcursor.theme").data then
            { t with RM_XCURSOR_THEME := some (r.dropWhile isspaceC) }
          else if k = ("Xcursor.size").data then
            { t with RM_XCURSOR_SIZE := some (r.dropWhile isspaceC) }
          else if k = ("Xft.dpi").data then
            { t with RM_XFT_DPI := some (r.dropWhile isspaceC) }
          else t)) ∧
    parse_resource_manager (some (("Xcursor.theme: Foo\nXcursor.size:  32\n").data)) =
      { RM_XCURSOR_THEME := some (("Foo").data), RM_XCURSOR_SIZE := some (("32").data),
        RM_XFT_DPI := none } ∧
    parse_resource_manager (some (("xcursor.theme: Foo").data)) = ResourceTable.empty := by
  refine ⟨fun t k r h => ?_, by decide, by decide⟩
  have hp : ∀ a ∈ k, ((a != ':') = true) := by
    intro a ha
    simp only [bne_iff_ne, ne_eq, decide_eq_true_eq]
    intro he
    exact h (he ▸ ha)
  have htake : (k ++ ':' :: r).takeWhile (· != ':') = k := by
    rw [List.takeWhile_append_of_pos hp]
    simp [List.takeWhile_cons]
  have hdrop : (k ++ ':' :: r).dropWhile (· != ':') = ':' :: r := by
    rw [List.dropWhile_append_of_pos hp]
    simp [List.dropWhile_cons]
  simp only [processLine, htake, hdrop]

/-- Claim C5, witness: key "Xft.dpi" with value " 77 " stores "77 " — leading
whitespace stripped, trailing whitespace kept verbatim. -/
theorem claim_C5_witness :
    processLine ResourceTable.empty ((("Xft.dpi").data) ++ ':' :: ((" 77 ").data)) =
      some { RM_XCURSOR_THEME := none, RM_XCURSOR_SIZE := none,
             RM_XFT_DPI := some (("77 ").data) } := by
  have h := claim_C5.1 ResourceTable.empty (("Xft.dpi").data) ((" 77 ").data) (by decide)
  rw [h]; decide

/-- Claim C6: a table built from well-formed lines holds, per recognized key,
exactly the value of the last line naming that key (top-to-bottom scan with
overwriting), and the structure itself admits one optional value per key; for
the example blob the stored dpi is "192". -/
theorem claim_C6 :
    (∀ (t : ResourceTable) (ls : List (List Char)), (∀ l ∈ ls, ':' ∈ l) →
      ∀ k : RmKey, (runLines t ls).get k =
        (ls.reverse.find? (fun l => lineKey l == some k)).elim (t.get k)
          (fun l => some (lineVal l))) ∧
    parse_resource_manager (some (("Xft.dpi: 96\nXft.dpi: 192\n").data)) =
      { RM_XCURSOR_THEME := none, RM_XCURSOR_SIZE := none,
        RM_XFT_DPI := some (("192").data) } :=
  ⟨fun t ls h k => runLines_last_wins k ls t h, by decide⟩

/-- Claim C6, witness: on the two-line dpi blob, the last line wins and the
stored entry is "192". -/
theorem claim_C6_witness :
    (runLines ResourceTable.empty
        (tokens (("Xft.dpi: 96\nXft.dpi: 192\n").data))).get RmKey.RM_XFT_DPI =
      some (("192").data) := by
  have h := claim_C6.1 ResourceTable.empty
    (tokens (("Xft.dpi: 96\nXft.dpi: 192\n").data)) (by decide) RmKey.RM_XFT_DPI
  rw [h]; decide

/-- Claim C7: a NULL reply and a zero-length blob both parse, without error,
to the table with all three recognized keys unset, and an unset entry is
distinguishable from an empty-string value. -/
theorem claim_C7 :
    parse_resource_manager none = ResourceTable.empty ∧
    parse_resource_manager (some []) = ResourceTable.empty ∧
    ResourceTable.empty.get RmKey.RM_XCURSOR_THEME = none ∧
    ResourceTable.empty.get RmKey.RM_XCURSOR_SIZE = none ∧
    ResourceTable.empty.get RmKey.RM_XFT_DPI = none ∧
    (none : Option (List Char)) ≠ some [] := by
  refine ⟨by decide, by decide, by decide, by decide, by decide, by decide⟩

/-- Claim C8, counterexample: with no environment variable and
`Xcursor.size = "-5"` in the table, the resolver returns 4294967291 (the
`uint32_t` conversion), not the parse -5. -/
theorem claim_C8_counterexample :
    (get_default_size ⟨none, some (("-5").data), none⟩ none ⟨640, 480⟩ : Int) = 4294967291 ∧
    atoi (("-5").data) = -5 ∧
    (get_default_size ⟨none, some (("-5").data), none⟩ none ⟨640, 480⟩ : Int) ≠
      atoi (("-5").data) := by
  refine ⟨by decide, by decide, by decide⟩

/-- Claim C8 (amended): with no `XCURSOR_SIZE` in the environment and a
`Xcursor.size` entry present, the resolver returns that entry's `atoi` parse
reduced modulo 2^32 (the `uint32_t` return conversion), independently of the
`Xft.dpi` entry and of the screen geometry; whenever the parse is
non-negative and below 2^32 — in particular for every digits-only value such
as "24" — the result is exactly the parse. -/
theorem claim_C8 (t : ResourceTable) (g g2 : xcb_screen_t) (s : List Char)
    (d2 : Option (List Char)) (hs : t.RM_XCURSOR_SIZE = some s) :
    get_default_size t none g = toU32 (atoi s) ∧
    get_default_size t none g =
      get_default_size ⟨t.RM_XCURSOR_THEME, some s, d2⟩ none g2 ∧
    (0 ≤ atoi s → atoi s < 4294967296 →
      (get_default_size t none g : Int) = atoi s) := by
  refine ⟨by simp [get_default_size, hs], by simp [get_default_size, hs], fun h1 h2 => ?_⟩
  simp only [get_default_size, hs]
  show ((atoi s % 4294967296).toNat : Int) = atoi s
  omega

/-- Claim C8, witness: `Xcursor.size = "24"` resolves to its parse 24. -/
theorem claim_C8_witness :
    (get_default_size ⟨none, some (("24").data), none⟩ none ⟨800, 600⟩ : Int) =
      atoi (("24").data) :=
  (claim_C8 ⟨none, some (("24").data), none⟩ ⟨800, 600⟩ ⟨800, 600⟩ (("24").data)
    none rfl).2.2 (by decide) (by decide)

/-- Claim C9, counterexample: `xcb_cursor_context_free` reads
`c->rm[RM_XCURSOR_THEME]` without checking `c`, so a NULL context argument
faults (modelled: the run yields `none`) instead of completing as a no-op. -/
theorem claim_C9_counterexample :
    xcb_cursor_context_free none = none ∧
    xcb_cursor_context_free none ≠ some () := by
  refine ⟨by decide, by decide⟩

/-- Claim C9 (amended): releasing a NULL context is not defended against —
the body dereferences the null pointer; the `FREE` macro null-guards only the
individual owned strings, so releasing any live context completes. -/
theorem claim_C9 :
    xcb_cursor_context_free none = none ∧
    (∀ c : xcb_cursor_context_t, xcb_cursor_context_free (some c) = some ()) :=
  ⟨rfl, fun _ => rfl⟩

/-- Claim C10: empty lines — a duplicated newline anywhere in the blob, or a
leading or trailing newline — produce no token, never trigger the no-colon
abort, and leave the parse result unchanged, so a blob with empty lines
inserted parses exactly like the blob with them removed. -/
theorem claim_C10 (l1 l2 : List Char) :
    parse_resource_manager (some (l1 ++ '\n' :: '\n' :: l2)) =
      parse_resource_manager (some (l1 ++ '\n' :: l2)) ∧
    parse_resource_manager (some ('\n' :: l1)) = parse_resource_manager (some l1) ∧
    parse_resource_manager (some (l1 ++ ['\n'])) = parse_resource_manager (some l1) := by
  refine ⟨?_, ?_, ?_⟩
  · show runLines ResourceTable.empty _ = runLines ResourceTable.empty _
    rw [tokens_append, tokens_append, tokens_newline_cons]
  · show runLines ResourceTable.empty _ = runLines ResourceTable.empty _
    rw [tokens_newline_cons]
  · show runLines ResourceTable.empty _ = runLines ResourceTable.empty _
    rw [tokens_append_newline]
